import Mathlib

/-
Verification of the request-scoping core of the drizzle-orm-cloudflare
node-postgres adapter (src/pkgs/node-postgres/src/driver.ts).

The embedding models:
- `DrizzleContext` (the scope record with optional `client` and `factory`),
- `getClientFromContext` (AsyncLocalStorage lookup, truthiness checks, lazy
  factory memoization via `context.client = context.factory()`),
- the proxy client's `query` method (delegation to the resolved client),
- `db.run` input normalization (string → new pool, function → factory,
  otherwise → client) and its delegation to `asyncLocalStorage.run`,
- a multi-chain world for the AsyncLocalStorage isolation guarantee.

JavaScript mutation of the scope record is made explicit by threading a
`ScopeState` that carries the record together with instrumentation counters
(number of factory invocations, number of writes to the `client` field).
External collaborators (the `pg.Pool` constructor, the wrapped client's
`query`, and the user-supplied factory) are modelled as parameters: a client
behaviour function, a descriptor-indexed pool constructor, and an
invocation-indexed factory outcome function.
-/

namespace DrizzleCF

/-- A parameterized query call as received by the proxy client's
`query(queryTextOrConfig, values?)` method: query text plus optional
parameter values. -/
structure QueryCall where
  text : String
  values : Option (List String)
deriving DecidableEq

/-- A concrete database client (for example a `pg.Pool`): identified by the
connection descriptor it was constructed from and an instance identity
distinguishing separately constructed pools with the same descriptor. -/
structure Client where
  desc : String
  instId : Nat
deriving DecidableEq

/-- A JavaScript runtime value sitting in client position: either a truthy
client object, or a falsy value (`undefined` / `null`), which is also what an
absent optional field reads as. -/
inductive JSVal where
  | falsy : JSVal
  | clientVal : Client → JSVal
deriving DecidableEq

/-- JavaScript truthiness of a client-position value: client objects are
truthy, `undefined` / `null` are falsy. -/
def JSVal.truthy : JSVal → Bool
  | .falsy => false
  | .clientVal _ => true

/-- JavaScript error values that can cross the core's boundaries: the two
errors the core itself constructs (`throw new Error(...)` on a missing
context and on a record with neither client nor factory), the runtime
`TypeError` raised when `.query` is invoked on a falsy client value, and
arbitrary user- or library-thrown values (from the factory or from the
wrapped client), identified by an opaque code. -/
inductive JsError where
  | contextMissing : String → JsError
  | invariantViolation : String → JsError
  | typeError : String → JsError
  | userError : Nat → JsError
deriving DecidableEq

/-- A user-supplied factory (`() => NodePgClient`), modelled by the outcome
of each successive invocation: invocation number `k` either throws an error
or returns a value (by its declared type a client, but at runtime possibly a
falsy value). -/
abbrev Factory := Nat → Except JsError JSVal

/-- The scope record stored in AsyncLocalStorage
(`interface DrizzleContext { client?; factory? }`). An absent `client` field
reads as the falsy value; an absent `factory` is `none` (a present function
is always truthy). -/
structure DrizzleContext where
  client : JSVal
  factory : Option Factory

/-- The dynamic state of one established scope: the (mutable) record plus
instrumentation — how many times the factory has been invoked and how many
times the `client` field has been written. -/
structure ScopeState where
  record : DrizzleContext
  factoryCalls : Nat
  clientWrites : Nat

/-- Behaviour of the wrapped client library's `query` method, as a function
of the concrete client and the query call: a result (opaque id) or a thrown
error. -/
abbrev ClientBehaviour := Client → QueryCall → Except JsError Nat

/-- Embedding of `getClientFromContext()`: read the AsyncLocalStorage store
(`none` = no scope established); if absent, throw the context-missing error;
if the record's `client` is truthy, return it; else if a `factory` is
present, invoke it, assign its result to `context.client`, and return that
assigned value; else throw the internal-invariant error. State threading
makes the single mutation site (the assignment on line 41 of driver.ts)
explicit; on a factory throw, no assignment happens. -/
def getClientFromContext (store : Option ScopeState) :
    Except JsError JSVal × Option ScopeState :=
  match store with
  | none =>
      (.error (.contextMissing
        "No database context found. Make sure to call db.run() to establish a request context."),
       none)
  | some s =>
      if s.record.client.truthy then
        (.ok s.record.client, some s)
      else
        match s.record.factory with
        | some f =>
            match f s.factoryCalls with
            | .error e =>
                (.error e, some { s with factoryCalls := s.factoryCalls + 1 })
            | .ok v =>
                (.ok v,
                 some { record := { client := v, factory := s.record.factory },
                        factoryCalls := s.factoryCalls + 1,
                        clientWrites := s.clientWrites + 1 })
        | none =>
            (.error (.invariantViolation
              "No client or factory found in context. This should not happen."),
             some s)

/-- Embedding of the proxy client's
`query: (q, values?) => getClientFromContext().query(q, values)`:
resolve the client from the current scope, then delegate the same query call
to it. Invoking `.query` on a falsy resolved value raises a `TypeError`
(the JavaScript behaviour when the factory returned `undefined`). -/
def proxyClientQuery (cb : ClientBehaviour) (store : Option ScopeState)
    (q : QueryCall) : Except JsError Nat × Option ScopeState :=
  match getClientFromContext store with
  | (.error e, st) => (.error e, st)
  | (.ok .falsy, st) =>
      (.error (.typeError "client.query is not a function"), st)
  | (.ok (.clientVal c), st) => (cb c q, st)

/-- The three runtime shapes of `db.run`'s first argument, as classified by
the source's `typeof` checks: a connection string, a function, or anything
else (an already-constructed client object — or, outside the declared type,
a falsy value such as `null`). -/
inductive RunInput where
  | connStr : String → RunInput
  | factoryFn : Factory → RunInput
  | clientObj : JSVal → RunInput

/-- Construction of `new pg.Pool({ connectionString: s })`: a fresh pool
instance whose behaviour-determining configuration is the descriptor `s` and
whose identity is a fresh allocation number. -/
def mkPool (s : String) (fresh : Nat) : Client := ⟨s, fresh⟩

/-- Embedding of the input-normalization block of `db.run` (first match
wins): a string constructs a new pool immediately and stores it as `client`
(consuming a fresh instance id); a function is stored as `factory` with no
client constructed; anything else is stored directly as `client`. Returns
the scope record and the next fresh instance id. -/
def normalizeContext (input : RunInput) (fresh : Nat) : DrizzleContext × Nat :=
  match input with
  | .connStr s => ({ client := .clientVal (mkPool s fresh), factory := none }, fresh + 1)
  | .factoryFn f => ({ client := .falsy, factory := some f }, fresh)
  | .clientObj v => ({ client := v, factory := none }, fresh)

/-- The fresh scope state established for a newly constructed record: no
factory invocations and no client-field writes have happened yet. -/
def initState (ctx : DrizzleContext) : ScopeState :=
  { record := ctx, factoryCalls := 0, clientWrites := 0 }

/-- Modelled from the spec: `asyncLocalStorage.run(context, callback)` — the
Scoped Context Store's `establish` operation (spec section 4.1), whose
implementation is the external `node:async_hooks` primitive and not part of
src/. It runs the callback with the new record as the store visible to the
callback's chain, returns exactly the callback's result, and once it
settles the store reverts to the enclosing one (`outer`). -/
def alsRun {α : Type} (outer : Option ScopeState) (ctx : DrizzleContext)
    (callback : Option ScopeState → α × Option ScopeState) :
    α × Option ScopeState :=
  ((callback (some (initState ctx))).1, outer)

/-- Embedding of `db.run(clientOrFactory, callback)`: normalize the input
into a scope record, then `return asyncLocalStorage.run(context, callback)`
— no wrapping, translation, or suppression of the callback's outcome. -/
def dbRun {α : Type} (outer : Option ScopeState) (fresh : Nat)
    (input : RunInput)
    (callback : Option ScopeState → α × Option ScopeState) :
    α × Option ScopeState :=
  alsRun outer (normalizeContext input fresh).1 callback

/-- A callback that issues a list of queries sequentially through the proxy
client within the current scope, collecting each query's outcome and
threading the scope state. -/
def runQueries (cb : ClientBehaviour) :
    Option ScopeState → List QueryCall →
      List (Except JsError Nat) × Option ScopeState
  | store, [] => ([], store)
  | store, q :: rest =>
      let step := proxyClientQuery cb store q
      let restRun := runQueries cb step.2 rest
      (step.1 :: restRun.1, restRun.2)

/-- Guard distinguishing usable records: the source's invariant-violation
branch fires exactly when the record's `client` is falsy and no `factory` is
present. -/
def hasClientOrFactory (ctx : DrizzleContext) : Bool :=
  ctx.client.truthy || ctx.factory.isSome

/-- The runtime precondition that `db.run`'s first argument respects its
declared type: a non-string, non-function input is an actual client object,
not `null` / `undefined`. -/
def runInputWF : RunInput → Bool
  | .clientObj v => v.truthy
  | _ => true

/-- Modelled from the spec: the AsyncLocalStorage visibility guarantee
(spec sections 4.1 and 5) — each concurrent asynchronous chain sees its own
store, never a sibling's. The world maps each chain to the scope state its
own `run` invocation established (or `none`). This chain-locality is the
documented semantics of the external `node:async_hooks` primitive, whose
implementation is not part of src/. -/
abbrev World := Nat → Option ScopeState

/-- One interleaving step: chain `c` issues query `q` against its own store;
only chain `c`'s store is updated. -/
def stepWorld (cb : ClientBehaviour) (w : World) (c : Nat) (q : QueryCall) :
    Except JsError Nat × World :=
  let step := proxyClientQuery cb (w c) q
  (step.1, fun i => if i = c then step.2 else w i)

/-- Execution of an arbitrary interleaving of queries across concurrent
chains: the schedule lists, in global order, which chain issues which query.
Returns the final world and the log of per-chain query outcomes. -/
def execSchedule (cb : ClientBehaviour) (w : World) :
    List (Nat × QueryCall) → World × List (Nat × Except JsError Nat)
  | [] => (w, [])
  | (c, q) :: rest =>
      let step := stepWorld cb w c q
      let restRun := execSchedule cb step.2 rest
      (restRun.1, (c, step.1) :: restRun.2)

/-- The subsequence of a schedule belonging to chain `i`. -/
def chainQueries (i : Nat) (sched : List (Nat × QueryCall)) : List QueryCall :=
  sched.filterMap (fun p => if p.1 = i then some p.2 else none)

/-- The subsequence of a result log belonging to chain `i`. -/
def chainResults (i : Nat) (log : List (Nat × Except JsError Nat)) :
    List (Except JsError Nat) :=
  log.filterMap (fun p => if p.1 = i then some p.2 else none)

/-- Helper: with a truthy `client` in the record, resolution returns that
client and leaves the scope state untouched. -/
theorem getClientFromContext_clientVal (s : ScopeState) (c : Client)
    (h : s.record.client = .clientVal c) :
    getClientFromContext (some s) = (.ok (.clientVal c), some s) := by
  simp [getClientFromContext, h, JSVal.truthy]

/-- Helper: with a truthy `client` in the record, a proxied query delegates
to that client and leaves the scope state untouched. -/
theorem proxyClientQuery_clientVal (cb : ClientBehaviour) (s : ScopeState)
    (c : Client) (q : QueryCall) (h : s.record.client = .clientVal c) :
    proxyClientQuery cb (some s) q = (cb c q, some s) := by
  simp [proxyClientQuery, getClientFromContext_clientVal s c h]

/-- Helper: with a truthy `client` in the record, a whole sequence of
proxied queries delegates each query to that client and leaves the scope
state untouched. -/
theorem runQueries_clientVal (cb : ClientBehaviour) (c : Client) :
    ∀ (qs : List QueryCall) (s : ScopeState),
      s.record.client = .clientVal c →
      runQueries cb (some s) qs = (qs.map (cb c), some s) := by
  intro qs
  induction qs with
  | nil => intro s _; rfl
  | cons q rest ih =>
      intro s h
      simp [runQueries, proxyClientQuery_clientVal cb s c q h, ih s h]

/-- Claim C1: a query issued through the proxy while no scope is established
fails with the context-missing error, whose message names the remedy
(call `db.run()` to establish a request context); the outcome is this error
for every client behaviour, so no previous or default client is ever
consulted. -/
theorem contextMissing_on_unscoped_query (cb : ClientBehaviour)
    (q : QueryCall) :
    proxyClientQuery cb none q
      = (.error (.contextMissing
          "No database context found. Make sure to call db.run() to establish a request context."),
         none) := rfl

/-- Claim C2: in a scope established by `run` with a factory, a nonempty
sequence of queries invokes the factory exactly once — by the first query —
provided that invocation succeeds in producing a client; the produced client
is stored in the record's `client` field (written exactly once, with the
`factory` field unchanged), and every query in the sequence, the first
included, delegates to that same client. -/
theorem factory_memoized_single_invocation (cb : ClientBehaviour)
    (f : Factory) (c : Client) (fresh : Nat) (q : QueryCall)
    (rest : List QueryCall) (hf : f 0 = .ok (.clientVal c)) :
    runQueries cb (some (initState (normalizeContext (.factoryFn f) fresh).1))
        (q :: rest)
      = ((q :: rest).map (cb c),
         some { record := { client := .clientVal c, factory := some f },
                factoryCalls := 1, clientWrites := 1 }) := by
  have hstep :
      proxyClientQuery cb
          (some (initState (normalizeContext (.factoryFn f) fresh).1)) q
        = (cb c q,
           some { record := { client := .clientVal c, factory := some f },
                  factoryCalls := 1, clientWrites := 1 }) := by
    simp [proxyClientQuery, getClientFromContext, normalizeContext, initState,
      JSVal.truthy, hf]
  simp [runQueries, hstep,
    runQueries_clientVal cb c rest
      { record := { client := .clientVal c, factory := some f },
        factoryCalls := 1, clientWrites := 1 } rfl]

/-- Claim C3: in a scope with a factory and a falsy `client`, a query on
which the factory throws fails with exactly that thrown error; the record is
left unchanged (the `client` field stays unset, no write is counted) and the
factory was invoked exactly once by the failing query (no retry within it);
the next query in the same scope invokes the factory again from scratch and,
when that fresh invocation produces a client, delegates to it. -/
theorem factory_failure_propagates_no_poisoning (cb : ClientBehaviour)
    (s : ScopeState) (f : Factory) (e : JsError) (c' : Client)
    (q q' : QueryCall)
    (hclient : s.record.client = .falsy)
    (hfact : s.record.factory = some f)
    (hthrow : f s.factoryCalls = .error e)
    (hnext : f (s.factoryCalls + 1) = .ok (.clientVal c')) :
    proxyClientQuery cb (some s) q
      = (.error e, some { s with factoryCalls := s.factoryCalls + 1 })
    ∧ proxyClientQuery cb
        (some { s with factoryCalls := s.factoryCalls + 1 }) q'
      = (cb c' q',
         some { record := { client := .clientVal c', factory := some f },
                factoryCalls := s.factoryCalls + 1 + 1,
                clientWrites := s.clientWrites + 1 }) := by
  constructor
  · simp [proxyClientQuery, getClientFromContext, hclient, hfact, hthrow,
      JSVal.truthy]
  · simp [proxyClientQuery, getClientFromContext, hclient, hfact, hnext,
      JSVal.truthy]

/-- Claim C6: a query issued in a scope whose record holds a truthy
`client` is delegated to that client with the identical query call (same
text, same parameter values) and yields exactly the client's outcome —
result or error — with no modification; the scope state is untouched. -/
theorem query_delegation_with_present_client (cb : ClientBehaviour)
    (s : ScopeState) (c : Client) (q : QueryCall)
    (h : s.record.client = .clientVal c) :
    proxyClientQuery cb (some s) q = (cb c q, some s) :=
  proxyClientQuery_clientVal cb s c q h

/-- Witness for claim C6 at a concrete scope, client and query. -/
theorem query_delegation_with_present_client_witness :
    ({ record := { client := .clientVal ⟨"pg://h/db", 0⟩, factory := none },
       factoryCalls := 0, clientWrites := 0 : ScopeState }).record.client
        = .clientVal ⟨"pg://h/db", 0⟩
    ∧ proxyClientQuery (fun c _ => .ok c.instId)
        (some { record := { client := .clientVal ⟨"pg://h/db", 0⟩,
                            factory := none },
                factoryCalls := 0, clientWrites := 0 })
        ⟨"select 1", none⟩
      = ((fun (c : Client) (_ : QueryCall) =>
            (.ok c.instId : Except JsError Nat)) ⟨"pg://h/db", 0⟩
          ⟨"select 1", none⟩,
         some { record := { client := .clientVal ⟨"pg://h/db", 0⟩,
                            factory := none },
                factoryCalls := 0, clientWrites := 0 }) :=
  ⟨rfl,
   query_delegation_with_present_client (fun c _ => .ok c.instId)
     { record := { client := .clientVal ⟨"pg://h/db", 0⟩, factory := none },
       factoryCalls := 0, clientWrites := 0 }
     ⟨"pg://h/db", 0⟩ ⟨"select 1", none⟩ rfl⟩

/-- Helper: with a factory that always returns a falsy value and a falsy
`client`, every query re-invokes the factory and re-writes the `client`
field: after `n` queries the factory was invoked `n` times and the field
written `n` times, while the record still holds the falsy client. -/
theorem runQueries_falsyFactory (cb : ClientBehaviour) :
    ∀ (qs : List QueryCall) (s : ScopeState),
      s.record.client = .falsy →
      s.record.factory = some (fun _ => .ok .falsy) →
      (runQueries cb (some s) qs).2
        = some { record := { client := .falsy,
                             factory := some (fun _ => .ok .falsy) },
                 factoryCalls := s.factoryCalls + qs.length,
                 clientWrites := s.clientWrites + qs.length } := by
  intro qs
  induction qs with
  | nil =>
      intro s hc hfac
      obtain ⟨⟨cl, fac⟩, fc, cw⟩ := s
      simp only at hc hfac
      subst hc
      subst hfac
      simp [runQueries]
  | cons q rest ih =>
      intro s hc hfac
      have hstep : proxyClientQuery cb (some s) q
          = (.error (.typeError "client.query is not a function"),
             some { record := { client := .falsy,
                                factory := some (fun _ => .ok .falsy) },
                    factoryCalls := s.factoryCalls + 1,
                    clientWrites := s.clientWrites + 1 }) := by
        simp [proxyClientQuery, getClientFromContext, hc, hfac, JSVal.truthy]
      have hrest := ih
        { record := { client := .falsy,
                      factory := some (fun _ => .ok .falsy) },
          factoryCalls := s.factoryCalls + 1,
          clientWrites := s.clientWrites + 1 } rfl rfl
      have harith1 : s.factoryCalls + 1 + rest.length
          = s.factoryCalls + (rest.length + 1) := by omega
      have harith2 : s.clientWrites + 1 + rest.length
          = s.clientWrites + (rest.length + 1) := by omega
      simp only [runQueries, hstep, hrest, List.length_cons, harith1, harith2]

/-- Claim C10: the proxy's checks are by truthiness, so a factory returning
a falsy value defeats memoization: resolution assigns the falsy value to the
record's `client` field (the write is counted) and returns it to its caller,
yet the record's `client` stays falsy, so every subsequent query in the same
scope invokes the factory again — after `n` queries in a scope established
with such a factory, the invocation count is `n`, not 1. -/
theorem truthiness_falsy_factory_refetch (cb : ClientBehaviour)
    (fresh : Nat) (qs : List QueryCall) (s : ScopeState)
    (hc : s.record.client = .falsy)
    (hfac : s.record.factory = some (fun _ => .ok .falsy)) :
    getClientFromContext (some s)
      = (.ok .falsy,
         some { record := { client := .falsy,
                            factory := some (fun _ => .ok .falsy) },
                factoryCalls := s.factoryCalls + 1,
                clientWrites := s.clientWrites + 1 })
    ∧ (runQueries cb
        (some (initState
          (normalizeContext (.factoryFn (fun _ => .ok .falsy)) fresh).1))
        qs).2
      = some { record := { client := .falsy,
                           factory := some (fun _ => .ok .falsy) },
               factoryCalls := qs.length, clientWrites := qs.length } := by
  constructor
  · simp [getClientFromContext, hc, hfac, JSVal.truthy]
  · have h := runQueries_falsyFactory cb qs
      (initState (normalizeContext (.factoryFn (fun _ => .ok .falsy)) fresh).1)
      rfl rfl
    simpa [initState, normalizeContext] using h

/-- Witness for claim C2: a concrete factory producing a concrete client,
with two queries in the scope. -/
theorem factory_memoized_single_invocation_witness :
    (fun _ => .ok (.clientVal ⟨"pg://h/db", 5⟩) : Factory) 0
        = .ok (.clientVal ⟨"pg://h/db", 5⟩)
    ∧ runQueries (fun c _ => .ok c.instId)
        (some (initState
          (normalizeContext
            (.factoryFn (fun _ => .ok (.clientVal ⟨"pg://h/db", 5⟩))) 0).1))
        [⟨"select 1", none⟩, ⟨"select 2", some ["x"]⟩]
      = ([.ok 5, .ok 5],
         some { record := { client := .clientVal ⟨"pg://h/db", 5⟩,
                            factory :=
                              some (fun _ => .ok (.clientVal ⟨"pg://h/db", 5⟩)) },
                factoryCalls := 1, clientWrites := 1 }) :=
  ⟨rfl,
   factory_memoized_single_invocation (fun c _ => .ok c.instId)
     (fun _ => .ok (.clientVal ⟨"pg://h/db", 5⟩)) ⟨"pg://h/db", 5⟩ 0
     ⟨"select 1", none⟩ [⟨"select 2", some ["x"]⟩] rfl⟩

/-- Witness for claim C3: a factory that throws on its first invocation and
produces a client on its second. -/
theorem factory_failure_propagates_no_poisoning_witness :
    (initState { client := .falsy,
                 factory := some (fun k =>
                   match k with
                   | 0 => .error (.userError 7)
                   | _ => .ok (.clientVal ⟨"pg://h/db", 1⟩)) }).record.client
        = .falsy
    ∧ (initState { client := .falsy,
                   factory := some (fun k =>
                     match k with
                     | 0 => .error (.userError 7)
                     | _ => .ok (.clientVal ⟨"pg://h/db", 1⟩)) }).record.factory
        = some (fun k =>
            match k with
            | 0 => .error (.userError 7)
            | _ => .ok (.clientVal ⟨"pg://h/db", 1⟩))
    ∧ (fun k =>
          match k with
          | 0 => (.error (.userError 7) : Except JsError JSVal)
          | _ => .ok (.clientVal ⟨"pg://h/db", 1⟩)) 0 = .error (.userError 7)
    ∧ (fun k =>
          match k with
          | 0 => (.error (.userError 7) : Except JsError JSVal)
          | _ => .ok (.clientVal ⟨"pg://h/db", 1⟩)) 1
        = .ok (.clientVal ⟨"pg://h/db", 1⟩)
    ∧ (proxyClientQuery (fun c _ => .ok c.instId)
          (some (initState { client := .falsy,
                             factory := some (fun k =>
                               match k with
                               | 0 => .error (.userError 7)
                               | _ => .ok (.clientVal ⟨"pg://h/db", 1⟩)) }))
          ⟨"select 1", none⟩).1
        = .error (.userError 7) := by
  have h := factory_failure_propagates_no_poisoning (fun c _ => .ok c.instId)
    (initState { client := .falsy,
                 factory := some (fun k =>
                   match k with
                   | 0 => .error (.userError 7)
                   | _ => .ok (.clientVal ⟨"pg://h/db", 1⟩)) })
    (fun k =>
      match k with
      | 0 => .error (.userError 7)
      | _ => .ok (.clientVal ⟨"pg://h/db", 1⟩))
    (.userError 7) ⟨"pg://h/db", 1⟩ ⟨"select 1", none⟩ ⟨"select 2", none⟩
    rfl rfl rfl rfl
  exact ⟨rfl, rfl, rfl, rfl, by rw [h.1]⟩

/-- Witness for claim C10: a factory always returning a falsy value, two
queries in the scope. -/
theorem truthiness_falsy_factory_refetch_witness :
    (initState { client := .falsy,
                 factory := some (fun _ => .ok .falsy) }).record.client
        = .falsy
    ∧ (initState { client := .falsy,
                   factory := some (fun _ => .ok .falsy) }).record.factory
        = some (fun _ => .ok .falsy)
    ∧ getClientFromContext
        (some (initState { client := .falsy,
                           factory := some (fun _ => .ok .falsy) }))
      = (.ok .falsy,
         some { record := { client := .falsy,
                            factory := some (fun _ => .ok .falsy) },
                factoryCalls := 1, clientWrites := 1 })
    ∧ (runQueries (fun c _ => .ok c.instId)
        (some (initState
          (normalizeContext (.factoryFn (fun _ => .ok .falsy)) 0).1))
        [⟨"select 1", none⟩, ⟨"select 2", none⟩]).2
      = some { record := { client := .falsy,
                           factory := some (fun _ => .ok .falsy) },
               factoryCalls := 2, clientWrites := 2 } := by
  have h := truthiness_falsy_factory_refetch (fun c _ => .ok c.instId) 0
    [⟨"select 1", none⟩, ⟨"select 2", none⟩]
    (initState { client := .falsy, factory := some (fun _ => .ok .falsy) })
    rfl rfl
  exact ⟨rfl, rfl, h.1, h.2⟩

/-- Claim C4: `run`'s input normalization, first match winning: a string
constructs a new pooled client from the descriptor immediately (inside
`run`, before the callback executes — the callback already observes the
constructed client in the record) and stores it as `client`; a function is
stored as `factory` with no client constructed (the fresh-instance counter
is not consumed); any other input is stored directly as `client`. -/
theorem run_input_normalization {α : Type} (s : String) (f : Factory)
    (v : JSVal) (fresh : Nat) (input : RunInput) (outer : Option ScopeState)
    (k : Option ScopeState → α × Option ScopeState) :
    normalizeContext (.connStr s) fresh
        = ({ client := .clientVal (mkPool s fresh), factory := none },
           fresh + 1)
    ∧ normalizeContext (.factoryFn f) fresh
        = ({ client := .falsy, factory := some f }, fresh)
    ∧ normalizeContext (.clientObj v) fresh
        = ({ client := v, factory := none }, fresh)
    ∧ dbRun outer fresh input k
        = ((k (some (initState (normalizeContext input fresh).1))).1, outer) :=
  ⟨rfl, rfl, rfl, rfl⟩

/-- Claim C5: `run(input, callback)` yields exactly the outcome the callback
produces — the same value on success and the same error on failure, since
the result component is the callback's own result, unmodified — and once
`run` settles the store reverts to the enclosing one, so the core adds no
wrapping, translation, or suppression. -/
theorem run_transparent_result_propagation {β : Type}
    (outer : Option ScopeState) (fresh : Nat) (input : RunInput)
    (k : Option ScopeState → Except JsError β × Option ScopeState) :
    (dbRun outer fresh input k).1
        = (k (some (initState (normalizeContext input fresh).1))).1
    ∧ (dbRun outer fresh input k).2 = outer :=
  ⟨rfl, rfl⟩

/-- Claim C7: a query against a scope record with neither a truthy `client`
nor a `factory` fails with the internal-invariant error, which is distinct
from the context-missing error; and every record `run` constructs from a
well-formed input (a string, a function, or an actual client object) has a
truthy `client` or a `factory`, so this branch is unreachable under that
precondition. -/
theorem invariant_error_distinct_and_unreachable (cb : ClientBehaviour)
    (s : ScopeState) (q : QueryCall) (input : RunInput) (fresh : Nat)
    (hs : hasClientOrFactory s.record = false)
    (hin : runInputWF input = true) :
    proxyClientQuery cb (some s) q
      = (.error (.invariantViolation
          "No client or factory found in context. This should not happen."),
         some s)
    ∧ (JsError.invariantViolation
          "No client or factory found in context. This should not happen."
        ≠ JsError.contextMissing
          "No database context found. Make sure to call db.run() to establish a request context.")
    ∧ hasClientOrFactory (normalizeContext input fresh).1 = true := by
  simp only [hasClientOrFactory, Bool.or_eq_false_iff] at hs
  have hcl : s.record.client = .falsy := by
    cases hcv : s.record.client with
    | falsy => rfl
    | clientVal c =>
        rw [hcv] at hs
        simp [JSVal.truthy] at hs
  have hfa : s.record.factory = none := by
    cases hfv : s.record.factory with
    | none => rfl
    | some f =>
        rw [hfv] at hs
        simp at hs
  refine ⟨?_, by simp, ?_⟩
  · simp [proxyClientQuery, getClientFromContext, hcl, hfa, JSVal.truthy]
  · cases input with
    | connStr s' => simp [normalizeContext, hasClientOrFactory, JSVal.truthy]
    | factoryFn f' => simp [normalizeContext, hasClientOrFactory]
    | clientObj v' =>
        simp only [runInputWF] at hin
        simp [normalizeContext, hasClientOrFactory, hin]

/-- Witness for claim C7: a defective record with a falsy client and no
factory, and a well-formed input. -/
theorem invariant_error_distinct_and_unreachable_witness :
    hasClientOrFactory
        (initState { client := .falsy, factory := none }).record = false
    ∧ runInputWF (.clientObj (.clientVal ⟨"pg://h/db", 3⟩)) = true
    ∧ proxyClientQuery (fun c _ => .ok c.instId)
        (some (initState { client := .falsy, factory := none }))
        ⟨"select 1", none⟩
      = (.error (.invariantViolation
          "No client or factory found in context. This should not happen."),
         some (initState { client := .falsy, factory := none }))
    ∧ hasClientOrFactory
        (normalizeContext (.clientObj (.clientVal ⟨"pg://h/db", 3⟩)) 0).1
        = true := by
  have h := invariant_error_distinct_and_unreachable (fun c _ => .ok c.instId)
    (initState { client := .falsy, factory := none }) ⟨"select 1", none⟩
    (.clientObj (.clientVal ⟨"pg://h/db", 3⟩)) 0 rfl rfl
  exact ⟨rfl, rfl, h.1, h.2.2⟩

/-- Claim C8: for clients whose query behaviour is determined by their
connection descriptor (identically-constructed pools behave alike, which is
the "modulo ownership" reading), running a sequence of queries in a scope
established from a descriptor string is behaviorally equivalent to running
it in a scope established from an already-constructed pooled client built
from the same descriptor: the same query outcomes are produced. -/
theorem connStr_equiv_prebuilt_client
    (cbDesc : String → QueryCall → Except JsError Nat) (s : String)
    (n1 n2 m : Nat) (qs : List QueryCall)
    (outer1 outer2 : Option ScopeState) :
    (dbRun outer1 n1 (.connStr s)
        (fun st => runQueries (fun c q => cbDesc c.desc q) st qs)).1
      = (dbRun outer2 m (.clientObj (.clientVal (mkPool s n2)))
          (fun st => runQueries (fun c q => cbDesc c.desc q) st qs)).1 := by
  have h1 := runQueries_clientVal (fun c q => cbDesc c.desc q) (mkPool s n1)
    qs (initState { client := .clientVal (mkPool s n1), factory := none }) rfl
  have h2 := runQueries_clientVal (fun c q => cbDesc c.desc q) (mkPool s n2)
    qs (initState { client := .clientVal (mkPool s n2), factory := none }) rfl
  simp only [dbRun, alsRun, normalizeContext]
  rw [h1, h2]
  simp [mkPool]

/-- Helper: the query subsequence of a schedule, unfolded one step. -/
theorem chainQueries_cons (i c : Nat) (q : QueryCall)
    (rest : List (Nat × QueryCall)) :
    chainQueries i ((c, q) :: rest)
      = if c = i then q :: chainQueries i rest else chainQueries i rest := by
  by_cases h : c = i <;> simp [chainQueries, List.filterMap_cons, h]

/-- Helper: the result subsequence of a log, unfolded one step. -/
theorem chainResults_cons (i c : Nat) (r : Except JsError Nat)
    (log : List (Nat × Except JsError Nat)) :
    chainResults i ((c, r) :: log)
      = if c = i then r :: chainResults i log else chainResults i log := by
  by_cases h : c = i <;> simp [chainResults, List.filterMap_cons, h]

/-- Helper: a step updates only the stepping chain's store. -/
theorem stepWorld_other (cb : ClientBehaviour) (w : World) (c : Nat)
    (q : QueryCall) (i : Nat) (h : i ≠ c) :
    (stepWorld cb w c q).2 i = w i := by
  simp [stepWorld, h]

/-- Helper: the stepping chain's store becomes the post-query scope state of
its own store. -/
theorem stepWorld_self (cb : ClientBehaviour) (w : World) (c : Nat)
    (q : QueryCall) :
    (stepWorld cb w c q).2 c = (proxyClientQuery cb (w c) q).2 := by
  simp [stepWorld]

/-- Helper: one-step unfolding of interleaved execution. -/
theorem execSchedule_cons (cb : ClientBehaviour) (w : World) (c : Nat)
    (q : QueryCall) (rest : List (Nat × QueryCall)) :
    execSchedule cb w ((c, q) :: rest)
      = ((execSchedule cb (stepWorld cb w c q).2 rest).1,
         (c, (stepWorld cb w c q).1)
           :: (execSchedule cb (stepWorld cb w c q).2 rest).2) := rfl

/-- Helper (noninterference of the chain-local store): under any
interleaving of queries across chains, the outcomes observed by chain `i`
and its final store are exactly those of running chain `i`'s own query
subsequence alone against chain `i`'s own store — other chains' scopes never
enter. -/
theorem execSchedule_proj (cb : ClientBehaviour) :
    ∀ (sched : List (Nat × QueryCall)) (w : World) (i : Nat),
      chainResults i (execSchedule cb w sched).2
          = (runQueries cb (w i) (chainQueries i sched)).1
      ∧ (execSchedule cb w sched).1 i
          = (runQueries cb (w i) (chainQueries i sched)).2 := by
  intro sched
  induction sched with
  | nil =>
      intro w i
      exact ⟨rfl, rfl⟩
  | cons p rest ih =>
      intro w i
      obtain ⟨c, q⟩ := p
      obtain ⟨ih1, ih2⟩ := ih (stepWorld cb w c q).2 i
      by_cases hci : c = i
      · subst hci
        rw [stepWorld_self] at ih1 ih2
        constructor
        · rw [execSchedule_cons]
          rw [chainResults_cons, if_pos rfl, ih1, chainQueries_cons,
            if_pos rfl]
          rfl
        · simp only [execSchedule_cons]
          rw [chainQueries_cons, if_pos rfl]
          exact ih2
      · have hwi : (stepWorld cb w c q).2 i = w i :=
          stepWorld_other cb w c q i (fun h => hci h.symm)
        rw [hwi] at ih1 ih2
        constructor
        · rw [execSchedule_cons]
          rw [chainResults_cons, if_neg hci, ih1, chainQueries_cons,
            if_neg hci]
        · simp only [execSchedule_cons]
          rw [chainQueries_cons, if_neg hci]
          exact ih2

/-- Claim C9: under any interleaving of concurrently established scopes,
every query issued on a chain resolves that chain's own scope record: the
chain's observed outcomes and final store are those of running its query
subsequence alone on its own store, and when the chain's record holds its
own client, every one of its queries delegates to exactly that client —
never a sibling chain's — and its scope state is untouched by the siblings.
The chain-local store visibility is the modelled AsyncLocalStorage
guarantee; the per-invocation freshness of the record comes from `run`'s
construction of a new context per call. -/
theorem concurrent_scope_isolation (cb : ClientBehaviour) (w : World)
    (sched : List (Nat × QueryCall)) (i : Nat) (s : ScopeState) (ci : Client)
    (hw : w i = some s) (hc : s.record.client = .clientVal ci) :
    chainResults i (execSchedule cb w sched).2
        = (runQueries cb (w i) (chainQueries i sched)).1
    ∧ chainResults i (execSchedule cb w sched).2
        = (chainQueries i sched).map (cb ci)
    ∧ (execSchedule cb w sched).1 i = some s := by
  obtain ⟨h1, h2⟩ := execSchedule_proj cb sched w i
  have hrun := runQueries_clientVal cb ci (chainQueries i sched) s hc
  refine ⟨h1, ?_, ?_⟩
  · rw [h1, hw, hrun]
  · rw [h2, hw, hrun]

/-- Witness for claim C9: two concurrent scopes with distinct clients and an
interleaved three-query schedule; chain 0's queries all resolve chain 0's
client. -/
theorem concurrent_scope_isolation_witness :
    (fun j => if j = 0
        then some (initState { client := .clientVal ⟨"a", 1⟩,
                               factory := none })
        else if j = 1
          then some (initState { client := .clientVal ⟨"b", 2⟩,
                                 factory := none })
          else (none : Option ScopeState)) 0
        = some (initState { client := .clientVal ⟨"a", 1⟩, factory := none })
    ∧ (initState { client := .clientVal ⟨"a", 1⟩,
                   factory := none }).record.client = .clientVal ⟨"a", 1⟩
    ∧ chainResults 0
        (execSchedule (fun c _ => .ok c.instId)
          (fun j => if j = 0
              then some (initState { client := .clientVal ⟨"a", 1⟩,
                                     factory := none })
              else if j = 1
                then some (initState { client := .clientVal ⟨"b", 2⟩,
                                       factory := none })
                else none)
          [(0, ⟨"q1", none⟩), (1, ⟨"q2", none⟩), (0, ⟨"q3", none⟩)]).2
      = (chainQueries 0
          [(0, ⟨"q1", none⟩), (1, ⟨"q2", none⟩), (0, ⟨"q3", none⟩)]).map
          (fun _ => (Except.ok 1 : Except JsError Nat))
    ∧ (execSchedule (fun c _ => .ok c.instId)
        (fun j => if j = 0
            then some (initState { client := .clientVal ⟨"a", 1⟩,
                                   factory := none })
            else if j = 1
              then some (initState { client := .clientVal ⟨"b", 2⟩,
                                     factory := none })
              else none)
        [(0, ⟨"q1", none⟩), (1, ⟨"q2", none⟩), (0, ⟨"q3", none⟩)]).1 0
      = some (initState { client := .clientVal ⟨"a", 1⟩, factory := none }) := by
  have h := concurrent_scope_isolation (fun c _ => .ok c.instId)
    (fun j => if j = 0
        then some (initState { client := .clientVal ⟨"a", 1⟩,
                               factory := none })
        else if j = 1
          then some (initState { client := .clientVal ⟨"b", 2⟩,
                                 factory := none })
          else none)
    [(0, ⟨"q1", none⟩), (1, ⟨"q2", none⟩), (0, ⟨"q3", none⟩)] 0
    (initState { client := .clientVal ⟨"a", 1⟩, factory := none }) ⟨"a", 1⟩
    rfl rfl
  exact ⟨rfl, rfl, h.2.1, h.2.2⟩

end DrizzleCF
